import Mathlib

/-!
Shallow embedding of the tb-everquest text adventure (src/game/player.py,
src/game/enemies.py, src/game/combat.py, src/game/story.py) together with
theorems settling the frozen claims about its specification.

Conventions of the embedding:
* Python integers are modelled as `Int` (combat stats, health, damage) or
  `Nat` (experience, level, fuel counters), all of which the program keeps
  non-negative.
* Python dicts whose insertion order matters (quest maps, dialogue branch
  maps) are modelled as association lists in insertion order.
* Randomness (initiative rolls, miss/critical/flee draws) and the player's
  interactive action inputs are supplied by explicit oracle streams,
  consumed through counters, so every run is a deterministic function of
  the oracle.
* The interactive combat loop of `Combat.initiate_combat` is modelled as a
  fuel-indexed recursion: `none` means the fuel was exhausted while the
  encounter was still ongoing.
-/

namespace TBEverquest

/-! ### Items (game/items.py)

Only potions matter for the combat `use` action.  `Potion.use` on a
`heal` potion calls `target.heal(effect_strength)` and returns `True`
(game/items.py lines 115-124); `Player.use_item` then removes the potion
from the inventory (game/player.py lines 192-202). -/

structure PotionS where
  name : String
  effectStrength : Int
  deriving Repr, DecidableEq

/-! ### Player (game/player.py)

`Player.__init__` (lines 10-41) fixes the base stats.  Equipped gear is
modelled by the total list of equipped armor defense values and the
optional main-hand weapon damage, which is all
`get_effective_attack_power` / `get_effective_defense` read from the
equipment slots. -/

structure PlayerS where
  name : String
  health : Int
  maxHealth : Int
  mana : Int
  maxMana : Int
  attackPower : Int
  defense : Int
  strength : Int
  dexterity : Int
  intelligence : Int
  experience : Nat
  level : Nat
  defending : Bool
  weaponDamage : Option Int
  armorDefenses : List Int
  inventory : List PotionS
  deriving Repr, DecidableEq

/-- Source: `Player.__init__` defaults (game/player.py lines 27-41). -/
def newPlayer (name : String) : PlayerS :=
  { name := name
    health := 100, maxHealth := 100
    mana := 50, maxMana := 50
    attackPower := 10, defense := 5
    strength := 10, dexterity := 10, intelligence := 10
    experience := 0, level := 1
    defending := false
    weaponDamage := none, armorDefenses := [], inventory := [] }

/-- Source: `Player.get_effective_attack_power` (lines 47-52):
base attack + strength // 2 + equipped weapon damage. -/
def getEffectiveAttackPower (p : PlayerS) : Int :=
  p.attackPower + p.strength / 2 +
    (match p.weaponDamage with
     | some d => d
     | none => 0)

/-- Source: `Player.get_effective_defense` (lines 54-62):
base defense + dexterity // 2 + armor pieces, doubled while `_defending`. -/
def getEffectiveDefense (p : PlayerS) : Int :=
  let total := p.defense + p.dexterity / 2 + p.armorDefenses.sum
  if p.defending then total * 2 else total

/-- Source: `Player.get_initiative_bonus` (lines 64-66). -/
def playerInitiativeBonus (p : PlayerS) : Int :=
  p.dexterity / 2

/-- Source: `Player.is_alive` (lines 68-70). -/
def playerIsAlive (p : PlayerS) : Bool :=
  p.health > 0

/-- Source: `Player.take_damage` (lines 72-81): effective damage is
`max(0, damage - effective_defense)`, subtracted from health and clamped
at 0. -/
def playerTakeDamage (damage : Int) (p : PlayerS) : PlayerS :=
  let effDef := getEffectiveDefense p
  let actual := max 0 (damage - effDef)
  let h := p.health - actual
  { p with health := if h < 0 then 0 else h }

/-- Source: `Player.heal` (lines 83-86). -/
def playerHeal (amount : Int) (p : PlayerS) : PlayerS :=
  { p with health := min p.maxHealth (p.health + amount) }

/-- Source: `Player.defend` (lines 99-101). -/
def playerDefend (p : PlayerS) : PlayerS :=
  { p with defending := true }

/-- Source: `Player.reset_defense` (lines 103-105). -/
def resetDefense (p : PlayerS) : PlayerS :=
  { p with defending := false }

/-- Source: `Player.use_item` (lines 192-202) for a heal potion: find the first
potion with the given name, apply its effect and remove it; `false` when
no such potion exists. -/
def useItem (itemName : String) (p : PlayerS) : PlayerS × Bool :=
  match p.inventory.findIdx? (fun potion => potion.name = itemName) with
  | some i =>
      let potion := p.inventory.getD i ⟨"", 0⟩
      (playerHeal potion.effectStrength
        { p with inventory := p.inventory.eraseIdx i }, true)
  | none => (p, false)

/-- The level-up condition of `Player.gain_experience` (line 208):
`experience >= 100 * level ** 1.5`, read over exact real arithmetic.
Since both sides are non-negative, `e ≥ 100 * l^(3/2)` holds exactly when
`e^2 ≥ 10000 * l^3`, which keeps the test inside `Nat`. -/
def levelUpReady (experience level : Nat) : Bool :=
  10000 * level ^ 3 ≤ experience * experience

/-- Source: `Player._level_up` (lines 216-229): increment the level, fully restore
health and mana, and apply the fixed stat deltas. -/
def levelUp (p : PlayerS) : PlayerS :=
  { p with
    level := p.level + 1
    maxHealth := p.maxHealth + 10
    health := p.maxHealth + 10
    maxMana := p.maxMana + 5
    mana := p.maxMana + 5
    attackPower := p.attackPower + 2
    defense := p.defense + 1
    strength := p.strength + 1
    dexterity := p.dexterity + 1
    intelligence := p.intelligence + 1 }

/-- The `while` loop of `Player.gain_experience` (lines 208-209): keep
levelling up while the accumulated experience reaches the current
threshold.  Terminates because the threshold grows with the level. -/
def levelLoop (experience : Nat) (p : PlayerS) : PlayerS :=
  if levelUpReady experience p.level then
    levelLoop experience (levelUp p)
  else
    p
termination_by experience * experience + 1 - p.level
decreasing_by
  simp only [levelUpReady, decide_eq_true_eq, levelUp] at *
  have h1 : p.level ≤ p.level ^ 3 := Nat.le_self_pow (by norm_num) _
  omega

/-- Source: `Player.gain_experience` (lines 204-209). -/
def gainExperience (amount : Nat) (p : PlayerS) : PlayerS :=
  levelLoop (p.experience + amount) { p with experience := p.experience + amount }

/-! ### Enemies (game/enemies.py) -/

inductive EnemyKind where
  | base
  | goblin
  | orc
  deriving Repr, DecidableEq

structure EnemyS where
  enemyId : String
  name : String
  maxHealth : Int
  health : Int
  attackPower : Int
  defense : Int
  initiativeBonus : Int
  lootXp : Nat
  kind : EnemyKind
  deriving Repr, DecidableEq

/-- Source: `Enemy.__init__` (game/enemies.py lines 7-18).  The constructor takes
an `initiative_bonus` parameter but stores the literal `0`
(`self.initiative_bonus = 0`, line 15). -/
def enemyInit (enemyId nm : String) (health attackPower defense : Int)
    (initBonus : Int) (lootXp : Nat) (kind : EnemyKind) : EnemyS :=
  let _ := initBonus   -- accepted by the constructor, never stored
  { enemyId := enemyId, name := nm
    maxHealth := health, health := health
    attackPower := attackPower, defense := defense
    initiativeBonus := 0
    lootXp := lootXp, kind := kind }

/-- Source: `Goblin.__init__` (lines 80-82) delegates to `Enemy.__init__`. -/
def goblinInit (enemyId nm : String) (health attackPower defense : Int)
    (initBonus : Int) (lootXp : Nat) : EnemyS :=
  enemyInit enemyId nm health attackPower defense initBonus lootXp .goblin

/-- Source: `Orc.__init__` (lines 97-99) delegates to `Enemy.__init__`. -/
def orcInit (enemyId nm : String) (health attackPower defense : Int)
    (initBonus : Int) (lootXp : Nat) : EnemyS :=
  enemyInit enemyId nm health attackPower defense initBonus lootXp .orc

/-- Source: `Enemy.get_initiative_bonus` (lines 20-21). -/
def enemyInitiativeBonus (e : EnemyS) : Int :=
  e.initiativeBonus

/-- Source: `Enemy.is_alive` (lines 23-25). -/
def enemyIsAlive (e : EnemyS) : Bool :=
  e.health > 0

/-- Source: `Enemy.take_damage` (lines 27-35). -/
def enemyTakeDamage (damage : Int) (e : EnemyS) : EnemyS :=
  let actual := max 0 (damage - e.defense)
  let h := e.health - actual
  { e with health := if h < 0 then 0 else h }

/-- Source: `Player.attack` (game/player.py lines 93-97): deal the effective
attack power to the target enemy. -/
def playerAttack (p : PlayerS) (e : EnemyS) : EnemyS :=
  enemyTakeDamage (getEffectiveAttackPower p) e

/-- Source: `Enemy.attack` (game/enemies.py lines 37-41): deal the raw attack
power to the player. -/
def enemyBaseAttack (e : EnemyS) (p : PlayerS) : PlayerS :=
  playerTakeDamage e.attackPower p

/-- Source: `Goblin.attack` (lines 84-90): with the 15% draw (`missDraw = true`
when `random.random() < 0.15`) the goblin misses and deals nothing;
otherwise it attacks as the base class does. -/
def goblinAttack (missDraw : Bool) (e : EnemyS) (p : PlayerS) : PlayerS :=
  if missDraw then p else enemyBaseAttack e p

/-- Source: `Orc.attack` (lines 101-108): a local `damage` starts at
`attack_power` and is multiplied by 1.5 on the 20% critical draw, but the
method then calls `super().attack(target)`, which re-reads
`self.attack_power` — the amplified local value is never used. -/
def orcAttack (critDraw : Bool) (e : EnemyS) (p : PlayerS) : PlayerS :=
  let damage : ℚ := (e.attackPower : ℚ)
  let _damage := if critDraw then damage * (3 / 2) else damage
  enemyBaseAttack e p

/-- Following the spec's words for the strong variant ("multiplying power
by 1.5 before applying"): on a critical draw the target's take-damage
receives 1.5 times the orc's attack power.  Stated over `ℚ`-valued
damage; the comparison theorems use even attack powers so the amplified
value is integral. -/
def orcAttackSpec (critDraw : Bool) (e : EnemyS) (p : PlayerS) : PlayerS :=
  playerTakeDamage (if critDraw then 3 * e.attackPower / 2 else e.attackPower) p

/-! ### Combat (game/combat.py)

The interactive loop of `Combat.initiate_combat` is driven by two oracle
streams: `actions n` is the text the player enters at the n-th prompt
(already split into a verb and a target, as lines 101-104 do), and
`chance n` is the outcome of the n-th `random.random()` comparison in
program order (goblin miss, orc critical, flee success). -/

inductive ActionInput where
  | attack (target : String)
  | use (item : String)
  | defend
  | run
  | invalid
  deriving Repr, DecidableEq

/-- A turn-order entry: the player, or the enemy at a given index of the
encounter's enemy list. -/
inductive TurnRef where
  | player
  | enemy (i : Nat)
  deriving Repr, DecidableEq

structure CombatOracle where
  actions : Nat → ActionInput
  chance : Nat → Bool

structure CombatState where
  player : PlayerS
  enemies : List EnemyS
  turnOrder : List TurnRef
  idx : Nat
  promptCount : Nat
  drawCount : Nat

/-- The possible results of `initiate_combat`.  The source returns
`player.is_alive()` — `True` for victory, `False` for defeat; `fled` is
the terminal state the spec describes for a successful escape. -/
inductive Outcome where
  | victory
  | defeat
  | fled
  deriving Repr, DecidableEq

/-- Stable descending insertion used to model `turn_order.sort(key=...,
reverse=True)` (combat.py line 37): Python's sort is stable, so an entry
is placed before the first strictly smaller score and after equal
scores that arrived earlier. -/
def insertDesc (x : TurnRef × Int) : List (TurnRef × Int) → List (TurnRef × Int)
  | [] => [x]
  | y :: ys => if y.2 ≤ x.2 then x :: y :: ys else y :: insertDesc x ys

def sortDesc : List (TurnRef × Int) → List (TurnRef × Int)
  | [] => []
  | x :: xs => insertDesc x (sortDesc xs)

/-- Source: `Combat.get_initiative` (combat.py lines 24-44): one d20 draw per
participant plus that participant's initiative bonus; the player is
appended first, then the enemies in list order; sort descending by
score (stable). -/
def getInitiative (p : PlayerS) (es : List EnemyS)
    (playerDraw : Int) (enemyDraws : Nat → Int) : List TurnRef :=
  let scores : List (TurnRef × Int) :=
    (TurnRef.player, playerDraw + playerInitiativeBonus p) ::
      (es.enum.map fun ei =>
        (TurnRef.enemy ei.1, enemyDraws ei.1 + enemyInitiativeBonus ei.2))
  (sortDesc scores).map Prod.fst


def defaultEnemy : EnemyS :=
  { enemyId := "", name := "", maxHealth := 0, health := 0, attackPower := 0
    defense := 0, initiativeBonus := 0, lootXp := 0, kind := .base }

/-- The re-prompting `while True` of `Combat._handle_player_turn`
(combat.py lines 100-133), fuelled by the number of prompts still
allowed.  The returned `Bool` models the handler's Python return value:
`true` stands for `return False` ("combat should end", flee succeeded,
line 128), `false` for falling through to line 134.  Every resolved exit
runs `player.reset_defense()` (either line 127 or line 134). -/
def promptLoop (o : CombatOracle) :
    Nat → PlayerS → List EnemyS → Nat → Nat →
    Option (PlayerS × List EnemyS × Nat × Nat × Bool)
  | 0, _, _, _, _ => none
  | fuel + 1, p, es, pc, dc =>
    match o.actions pc with
    | .attack targetName =>
        match es.findIdx? (fun e => e.name == targetName && enemyIsAlive e) with
        | some i =>
            let e' := playerAttack p (es.getD i defaultEnemy)
            some (resetDefense p, es.set i e', pc + 1, dc, false)
        | none => promptLoop o fuel p es (pc + 1) dc
    | .use itemName =>
        let pr := useItem itemName p
        if pr.2 then some (resetDefense pr.1, es, pc + 1, dc, false)
        else promptLoop o fuel pr.1 es (pc + 1) dc
    | .defend =>
        -- line 120 sets the flag, line 134 clears it again before the
        -- handler returns
        some (resetDefense (playerDefend p), es, pc + 1, dc, false)
    | .run =>
        if o.chance dc then
          some (resetDefense p, es, pc + 1, dc + 1, true)
        else
          some (resetDefense p, es, pc + 1, dc + 1, false)
    | .invalid => promptLoop o fuel p es (pc + 1) dc

/-- The `isinstance(current_combatant, type(enemies[0]))` dispatch of the
combat loop (combat.py line 67): an enemy object passes iff its class is
a subclass of the class of `enemies[0]`. -/
def isSubclassKind (k k0 : EnemyKind) : Bool :=
  k == k0 || k0 == .base

/-- One enemy turn (`Combat._handle_enemy_turn`, lines 137-144, plus the
per-variant `attack` methods): an alive enemy attacks the player, with
goblins and orcs consuming one probability draw each. -/
def enemyAttackStep (o : CombatOracle) (e : EnemyS) (p : PlayerS) (dc : Nat) :
    PlayerS × Nat :=
  match e.kind with
  | .base => (enemyBaseAttack e p, dc)
  | .goblin => (goblinAttack (o.chance dc) e p, dc + 1)
  | .orc => (orcAttack (o.chance dc) e p, dc + 1)

/-- One iteration body of the `while` loop of `Combat.initiate_combat`
(combat.py lines 62-72): resolve the current combatant's turn.  The
player handler's return value is computed and then dropped, exactly as
line 66 drops it. -/
def takeTurn (o : CombatOracle) (fuel : Nat) (st : CombatState) :
    Option CombatState :=
  match st.turnOrder.getD st.idx .player with
  | .player =>
      match promptLoop o fuel st.player st.enemies st.promptCount st.drawCount with
      | none => none
      | some (p', es', pc', dc', _fled) =>
          -- `cls._handle_player_turn(player, enemies)` discards the
          -- handler's return value
          some { st with player := p', enemies := es', promptCount := pc',
                         drawCount := dc' }
  | .enemy i =>
      let e := st.enemies.getD i defaultEnemy
      let k0 := (st.enemies.getD 0 defaultEnemy).kind
      if isSubclassKind e.kind k0 then
        if enemyIsAlive e then
          let pr := enemyAttackStep o e st.player st.drawCount
          some { st with player := pr.1, drawCount := pr.2 }
        else
          some st   -- "The defeated ... skips its turn."
      else
        some st     -- neither branch of lines 65-71 applies

/-- The post-combat reward step (combat.py lines 81-94): on victory, sum
the `loot_xp` of the dead enemies and feed it through
`Player.gain_experience`; the returned outcome reflects the source's
`return player.is_alive()`. -/
def finishCombat (st : CombatState) : Outcome × PlayerS × List EnemyS :=
  if playerIsAlive st.player then
    let totalXp :=
      (st.enemies.filter (fun e => !enemyIsAlive e)).foldl
        (fun acc e => acc + e.lootXp) 0
    (.victory, gainExperience totalXp st.player, st.enemies)
  else
    (.defeat, st.player, st.enemies)

/-- Source: `(current_turn_index + 1) % len(turn_order)` (combat.py line 77). -/
def advanceIdx (st : CombatState) : CombatState :=
  { st with idx := (st.idx + 1) % st.turnOrder.length }

/-- The `while` condition of `Combat.initiate_combat` (combat.py line
62): the player is alive and some enemy is alive. -/
def combatOngoing (st : CombatState) : Bool :=
  playerIsAlive st.player && st.enemies.any enemyIsAlive

/-- The total combined health of an encounter (the quantity the spec's
termination bound is stated in). -/
def totalHealth (st : CombatState) : Nat :=
  st.player.health.toNat + (st.enemies.map (fun e => e.health.toNat)).sum

/-- The `while` loop of `Combat.initiate_combat` (combat.py lines
62-94), fuelled: `none` means the fuel ran out while the encounter was
still ongoing (or while the player was still being re-prompted). -/
def combatLoopAux (o : CombatOracle) :
    Nat → CombatState → Option (Outcome × PlayerS × List EnemyS)
  | 0, _ => none
  | fuel + 1, st =>
    if combatOngoing st then
      match takeTurn o (fuel + 1) st with
      | none => none
      | some st1 =>
          if !playerIsAlive st1.player || !st1.enemies.any enemyIsAlive then
            some (finishCombat st1)
          else
            combatLoopAux o fuel (advanceIdx st1)
    else
      some (finishCombat st)

/-- Source: `Combat.initiate_combat` (combat.py lines 46-94): compute the turn
order once from the initiative draws, then run the loop from index 0. -/
def initiateCombat (o : CombatOracle) (fuel : Nat) (p : PlayerS)
    (es : List EnemyS) (playerDraw : Int) (enemyDraws : Nat → Int) :
    Option (Outcome × PlayerS × List EnemyS) :=
  combatLoopAux o fuel
    { player := p, enemies := es
      turnOrder := getInitiative p es playerDraw enemyDraws
      idx := 0, promptCount := 0, drawCount := 0 }

/-! ### Story: quests and dialogue (game/story.py)

Python dicts (`self.quests`, `self.completed_quests`,
`self.story_progress_flags`, the objectives dict of a quest, the branch
dict of an NPC) are modelled as association lists in insertion order.
Dict assignment replaces an existing key in place or appends a new one;
`del` removes the key. -/

def assocSet {α : Type} (l : List (String × α)) (k : String) (v : α) :
    List (String × α) :=
  match l with
  | [] => [(k, v)]
  | (k', v') :: rest =>
      if k' = k then (k, v) :: rest else (k', v') :: assocSet rest k v

def assocErase {α : Type} (l : List (String × α)) (k : String) :
    List (String × α) :=
  match l with
  | [] => []
  | (k', v') :: rest =>
      if k' = k then rest else (k', v') :: assocErase rest k

inductive QStatus where
  | notStarted
  | active
  | completed
  | failed
  deriving Repr, DecidableEq

/-- Source: `Quest` (story.py lines 3-14): objectives are a dict from objective id
to a completed flag (the description is irrelevant to the logic). -/
structure QuestS where
  questId : String
  objectives : List (String × Bool)
  rewardXp : Nat
  status : QStatus
  deriving Repr, DecidableEq

def defaultQuest : QuestS :=
  { questId := "", objectives := [], rewardXp := 0, status := .notStarted }

/-- One entry of the raw `quest_data` loaded from data/quests.json, as
`Quest.from_dict` and `Story._load_initial_quests` read it. -/
structure QuestTemplate where
  objectives : List (String × Bool)
  rewardXp : Nat
  initialQuest : Bool
  deriving Repr, DecidableEq

/-- Source: `Quest.from_dict({'quest_id': quest_id, **data})` (story.py lines
50-61) for a template entry: status starts as `not_started` until the
caller overwrites it.  The `**` unpacking is a shallow copy, so the new
quest's `objectives` is the *same* dict object as the template's — the
quest is instantiated with the template's current objective flags, and
later in-place updates are shared (see `completeObjective`). -/
def questFromTemplate (qid : String) (t : QuestTemplate) : QuestS :=
  { questId := qid, objectives := t.objectives, rewardXp := t.rewardXp
    status := .notStarted }

/-- Source: `Quest.update_objective` (lines 16-22): mark a known objective
completed and report `true`; report `false` for an unknown id. -/
def updateObjective (objectiveId : String) (q : QuestS) : QuestS × Bool :=
  if (q.objectives.lookup objectiveId).isSome then
    ({ q with objectives := assocSet q.objectives objectiveId true }, true)
  else
    (q, false)

/-- Source: `Quest.is_completed` (lines 24-26). -/
def questIsCompleted (q : QuestS) : Bool :=
  q.objectives.all (fun ob => ob.2)

/-- Source: `Story`'s mutable state (lines 68-77): the raw quest data
(`self.quest_data`, line 71 — mutable, because quest instances share its
nested objectives dicts), active quests, completed quests, story
progress flags. -/
structure StoryS where
  questData : List (String × QuestTemplate)
  quests : List (String × QuestS)
  completedQuests : List (String × QuestS)
  flags : List (String × Bool)
  deriving Repr, DecidableEq

/-- Source: `Story._load_initial_quests` (lines 79-87): every template flagged
`initial_quest` is instantiated and put in the active set with status
`active`. -/
def loadInitialQuests (questData : List (String × QuestTemplate)) :
    List (String × QuestS) :=
  questData.foldl
    (fun acc qt =>
      if qt.2.initialQuest then
        assocSet acc qt.1 ({ questFromTemplate qt.1 qt.2 with status := .active })
      else acc)
    []

/-- Source: `Story.__init__` (lines 68-77). -/
def initStory (questData : List (String × QuestTemplate)) : StoryS :=
  { questData := questData, quests := loadInitialQuests questData
    completedQuests := [], flags := [] }

/-- Source: `Story.start_quest` (lines 89-98): instantiate from the template and
mark active when the id is known and not already in the active set.
The new quest's objectives are the template's *current* objectives dict
(shared by reference): a quest restarted after completion therefore
starts with its objectives already marked completed. -/
def startQuest (s : StoryS) (qid : String) : StoryS × Bool :=
  match s.questData.lookup qid with
  | some t =>
      if (s.quests.lookup qid).isSome then (s, false)
      else
        let newQuest := { questFromTemplate qid t with status := QStatus.active }
        ({ s with quests := assocSet s.quests qid newQuest }, true)
  | none => (s, false)

/-- Source: `Story._complete_quest` (lines 110-125): set status `completed`,
grant the reward experience through `Player.gain_experience`, move the
quest from the active dict to the completed dict. -/
def completeQuest (pl : PlayerS) (s : StoryS) (qid : String) :
    PlayerS × StoryS :=
  let q := (s.quests.lookup qid).getD defaultQuest
  let q' := { q with status := QStatus.completed }
  (gainExperience q'.rewardXp pl,
   { s with
     completedQuests := assocSet s.completedQuests qid q'
     quests := assocErase s.quests qid })

/-- Write an updated quest (after an in-place mutation of its shared
objectives dict) through every holder of that dict: the active entry,
the template in `quest_data`, and any earlier instance of the same
quest id in the completed collection.  In the source these are the same
Python dict object (`Quest.from_dict`'s `**` copy is shallow), so the
single in-place write of `update_objective` is visible through all of
them; on the states reachable by the modelled operations the three
copies are always equal, and this helper performs exactly that shared
write. -/
def shareObjectives (s : StoryS) (qid : String) (q' : QuestS) : StoryS :=
  { s with
    quests := assocSet s.quests qid q'
    questData :=
      match s.questData.lookup qid with
      | some t => assocSet s.questData qid { t with objectives := q'.objectives }
      | none => s.questData
    completedQuests :=
      match s.completedQuests.lookup qid with
      | some qc =>
          assocSet s.completedQuests qid { qc with objectives := q'.objectives }
      | none => s.completedQuests }

/-- Source: `Story.complete_objective` (lines 100-108).  Mirrors the source's
control flow exactly: when the quest is in the active dict with status
`active`, the function reaches `return True` whether or not
`update_objective` found the objective id; `False` is returned only when
the quest is absent or not active.  A successful `update_objective`
mutates the quest's objectives dict in place, which is shared with the
`quest_data` template and any completed instance of the same quest id
(`shareObjectives`). -/
def completeObjective (pl : PlayerS) (s : StoryS) (qid objectiveId : String) :
    PlayerS × StoryS × Bool :=
  match s.quests.lookup qid with
  | some q =>
      if q.status = QStatus.active then
        let qr := updateObjective objectiveId q
        if qr.2 then
          let s' := shareObjectives s qid qr.1
          if questIsCompleted qr.1 then
            let pr := completeQuest pl s' qid
            (pr.1, pr.2, true)
          else
            (pl, s', true)
        else
          (pl, s, true)
      else
        (pl, s, false)
  | none => (pl, s, false)

/-- The story states reachable from `Story.__init__` by any interleaving
of `start_quest` and `complete_objective` calls (with arbitrary players
and arguments); quest completion only ever happens inside
`complete_objective`. -/
inductive StoryReachable (questData : List (String × QuestTemplate)) :
    StoryS → Prop where
  | init : StoryReachable questData (initStory questData)
  | start (s : StoryS) (qid : String) :
      StoryReachable questData s →
      StoryReachable questData (startQuest s qid).1
  | complete (s : StoryS) (pl : PlayerS) (qid objectiveId : String) :
      StoryReachable questData s →
      StoryReachable questData (completeObjective pl s qid objectiveId).2.1

/-! ### Dialogue (story.py lines 149-236) -/

structure DialogueChoice where
  text : String
  triggersQuest : Option String
  updatesObjective : Option (String × String)
  setsFlag : Option String
  deriving Repr, DecidableEq

structure DialogueLine where
  text : String
  choices : Option (List DialogueChoice)
  triggersQuest : Option String
  setsFlag : Option String
  updatesObjective : Option (String × String)
  deriving Repr, DecidableEq

structure DialogueBranch where
  requiresFlag : Option String
  requiresQuestActive : Option String
  lines : List DialogueLine
  deriving Repr, DecidableEq

/-- The branch precondition check of `Story.handle_dialogue` (lines
160-168): a required flag must be set (missing flags default to false),
and a required quest must be in the active dict. -/
def branchOk (s : StoryS) (b : DialogueBranch) : Bool :=
  (match b.requiresFlag with
   | some f => (s.flags.lookup f).getD false
   | none => true) &&
  (match b.requiresQuestActive with
   | some qid => (s.quests.lookup qid).isSome
   | none => true)

/-- The branch selection loop (lines 159-172): walk the NPC's branches in
declared order and take the first whose conditions are met. -/
def selectBranch (s : StoryS) :
    List (String × DialogueBranch) → Option DialogueBranch
  | [] => none
  | b :: bs => if branchOk s b.2 then some b.2 else selectBranch s bs

/-- Source: `Story._handle_dialogue_choices` (lines 203-236) for the selected
choice: apply `triggers_quest`, then `updates_objective`, then
`sets_flag`, in the source's order. -/
def applyChoice (pl : PlayerS) (s : StoryS) (c : DialogueChoice) :
    PlayerS × StoryS :=
  let s1 :=
    match c.triggersQuest with
    | some qid => (startQuest s qid).1
    | none => s
  let pr :=
    match c.updatesObjective with
    | some qo => let r := completeObjective pl s1 qo.1 qo.2; (r.1, r.2.1)
    | none => (pl, s1)
  match c.setsFlag with
  | some f => (pr.1, { pr.2 with flags := assocSet pr.2.flags f true })
  | none => pr

/-- The line-processing loop of `Story.handle_dialogue` (lines 176-195):
a line with choices hands control to the choice handler and stops the
branch; otherwise `triggers_quest`, `sets_flag` and `updates_objective`
are applied in that order and processing continues.  The source
re-prompts until the choice index is valid; `choose` supplies the first
valid selection. -/
def processLines (choose : List DialogueChoice → Nat)
    (pl : PlayerS) (s : StoryS) : List DialogueLine → PlayerS × StoryS
  | [] => (pl, s)
  | line :: rest =>
    match line.choices with
    | some cs =>
        let c := cs.getD (choose cs % cs.length) ⟨"", none, none, none⟩
        applyChoice pl s c
    | none =>
        let s1 :=
          match line.triggersQuest with
          | some qid => (startQuest s qid).1
          | none => s
        let s2 :=
          match line.setsFlag with
          | some f => { s1 with flags := assocSet s1.flags f true }
          | none => s1
        let pr :=
          match line.updatesObjective with
          | some qo => let r := completeObjective pl s2 qo.1 qo.2; (r.1, r.2.1)
          | none => (pl, s2)
        processLines choose pr.1 pr.2 rest

inductive DialogueResult where
  | spoke
  | nothingToSay
  | noSuchNpc
  deriving Repr, DecidableEq

/-- Source: `Story.handle_dialogue` (lines 149-201): look up the NPC, select the
first qualifying branch and process its lines; with no qualifying branch
the NPC "has nothing new to say" and nothing changes. -/
def handleDialogue (dialogueData : List (String × List (String × DialogueBranch)))
    (choose : List DialogueChoice → Nat)
    (pl : PlayerS) (s : StoryS) (npcId : String) :
    PlayerS × StoryS × DialogueResult :=
  match dialogueData.lookup npcId with
  | none => (pl, s, .noSuchNpc)
  | some branches =>
      match selectBranch s branches with
      | none => (pl, s, .nothingToSay)
      | some b =>
          let pr := processLines choose pl s b.lines
          (pr.1, pr.2, .spoke)

/-! ### Concrete fixtures used by the theorems below -/

def heroP : PlayerS := newPlayer "hero"

def heroA : PlayerS := newPlayer "adventurer"

def bruteE : EnemyS := enemyInit "e1" "brute" 30 60 0 0 0 .base

def orcE : EnemyS := orcInit "o1" "orc" 50 12 5 0 25

def goblinE : EnemyS := goblinInit "g1" "goblin" 20 5 2 0 10

/-- An action source that always enters `run`, with every probability
draw succeeding (so every flee attempt succeeds). -/
def runOracle : CombatOracle := { actions := fun _ => .run, chance := fun _ => true }

/-- An action source that always enters `defend`, with every probability
draw failing (so a goblin never misses). -/
def defendOracle : CombatOracle := { actions := fun _ => .defend, chance := fun _ => false }

/-- An encounter of the default player against one orc, the player
winning initiative. -/
def stOrc : CombatState :=
  { player := heroP, enemies := [orcE]
    turnOrder := getInitiative heroP [orcE] 20 (fun _ => 1)
    idx := 0, promptCount := 0, drawCount := 0 }

/-- An encounter of the default player against one goblin, the player
winning initiative. -/
def stGob : CombatState :=
  { player := heroP, enemies := [goblinE]
    turnOrder := getInitiative heroP [goblinE] 20 (fun _ => 1)
    idx := 0, promptCount := 0, drawCount := 0 }

/-- The default player at level 2 (experience still 0). -/
def pl2 : PlayerS := { newPlayer "hero" with level := 2 }

def questData1 : List (String × QuestTemplate) :=
  [("q1", { objectives := [("o1", false)], rewardXp := 50, initialQuest := false })]

def storyEmpty : StoryS := initStory questData1

def storyActive : StoryS := (startQuest storyEmpty "q1").1

def storyDone : StoryS := (completeObjective heroA storyActive "q1" "o1").2.1

def storyBoth : StoryS := (startQuest storyDone "q1").1

/-! ### Claim theorems -/

/-- C10: for every enemy built through the `Enemy`, `Goblin` or `Orc`
constructor, `get_initiative_bonus()` returns 0 whatever
`initiative_bonus` value the constructor received, so the enemy's
initiative score `draw + bonus` equals the raw draw. -/
theorem enemy_initiative_bonus_zero (eid nm : String) (hp atk df ib : Int)
    (lx : Nat) (k : EnemyKind) (draw : Int) :
    enemyInitiativeBonus (enemyInit eid nm hp atk df ib lx k) = 0 ∧
    enemyInitiativeBonus (goblinInit eid nm hp atk df ib lx) = 0 ∧
    enemyInitiativeBonus (orcInit eid nm hp atk df ib lx) = 0 ∧
    draw + enemyInitiativeBonus (enemyInit eid nm hp atk df ib lx k) = draw :=
  ⟨rfl, rfl, rfl, by simp [enemyInitiativeBonus, enemyInit]⟩

/-- C4 (code bug): the orc's critical draw never changes the damage the
target receives.  `Orc.attack` multiplies a local `damage` by 1.5 on the
20% draw and then calls `super().attack(target)`, which reads
`self.attack_power` again, so `orcAttack` coincides with the base attack
for both draw outcomes.  Concretely, an orc with attack power 12 hitting
the default player (effective defense 10) leaves health 98 with and
without the critical draw, whereas the claimed amplified attack
(`orcAttackSpec`) would leave 92 on a critical. -/
theorem orc_critical_never_applied :
    (∀ (critDraw : Bool) (e : EnemyS) (pl : PlayerS),
        orcAttack critDraw e pl = orcAttack false e pl) ∧
    (orcAttack true orcE heroP).health = 98 ∧
    (orcAttack false orcE heroP).health = 98 ∧
    (orcAttackSpec true orcE heroP).health = 92 ∧
    (orcAttackSpec false orcE heroP).health = 98 :=
  ⟨fun _ _ _ => rfl, by decide, by decide, by decide, by decide⟩

/-- Helper: the health clamp `if h < 0 then 0 else h` is `max 0 h`. -/
theorem clamp_eq_max (x : Int) : (if x < 0 then 0 else x) = max 0 x := by
  split
  · exact (max_eq_left (le_of_lt (by assumption))).symm
  · exact (max_eq_right (not_lt.mp (by assumption))).symm

/-- C5: for every combatant and non-negative damage `d`, `take_damage(d)`
sets health to `max 0 (h - max 0 (d - f))` where `f` is the combatant's
(effective) defense; health never becomes negative, and the combatant is
alive iff the resulting health is positive. -/
theorem take_damage_clamped (d : Int) (e : EnemyS) (pl : PlayerS)
    (hd : 0 ≤ d) :
    ((enemyTakeDamage d e).health
        = max 0 (e.health - max 0 (d - e.defense)) ∧
      0 ≤ (enemyTakeDamage d e).health ∧
      (enemyIsAlive (enemyTakeDamage d e) = true ↔
        0 < (enemyTakeDamage d e).health)) ∧
    ((playerTakeDamage d pl).health
        = max 0 (pl.health - max 0 (d - getEffectiveDefense pl)) ∧
      0 ≤ (playerTakeDamage d pl).health ∧
      (playerIsAlive (playerTakeDamage d pl) = true ↔
        0 < (playerTakeDamage d pl).health)) := by
  refine ⟨⟨?_, ?_, ?_⟩, ⟨?_, ?_, ?_⟩⟩
  · exact clamp_eq_max _
  · rw [show (enemyTakeDamage d e).health
        = max 0 (e.health - max 0 (d - e.defense)) from clamp_eq_max _]
    exact le_max_left _ _
  · simp [enemyIsAlive]
  · exact clamp_eq_max _
  · rw [show (playerTakeDamage d pl).health
        = max 0 (pl.health - max 0 (d - getEffectiveDefense pl)) from clamp_eq_max _]
    exact le_max_left _ _
  · simp [playerIsAlive]

/-- Witness for C5 at damage 20 against the goblin fixture (health 20,
defense 2 → health 2) and the default player (health 100, effective
defense 10 → health 85, the spec's own scenario). -/
theorem take_damage_clamped_witness :
    (0 : Int) ≤ 20 ∧
    (((enemyTakeDamage 20 goblinE).health
        = max 0 (goblinE.health - max 0 (20 - goblinE.defense)) ∧
      0 ≤ (enemyTakeDamage 20 goblinE).health ∧
      (enemyIsAlive (enemyTakeDamage 20 goblinE) = true ↔
        0 < (enemyTakeDamage 20 goblinE).health)) ∧
    ((playerTakeDamage 20 heroP).health
        = max 0 (heroP.health - max 0 (20 - getEffectiveDefense heroP)) ∧
      0 ≤ (playerTakeDamage 20 heroP).health ∧
      (playerIsAlive (playerTakeDamage 20 heroP) = true ↔
        0 < (playerTakeDamage 20 heroP).health))) :=
  ⟨by norm_num, take_damage_clamped 20 goblinE heroP (by norm_num)⟩

/-- C1 (code bug): a successful flee does not end the encounter.  The
player-turn handler does report success (its returned flag is `true`,
modelling `return False`, and the defending flag is cleared), but
`initiate_combat` discards that return value, so the loop goes on: with
an action source that always chooses `run` and every flee draw
succeeding, the enemy keeps attacking after each "successful" escape and
the encounter ends in `Defeat` with the player at 0 health — there is no
`Fled` terminal state in the code. -/
theorem flee_success_ignored_by_loop :
    (promptLoop runOracle 10 heroP [bruteE] 0 0).map
        (fun r => (r.1.defending, r.2.2.2.2)) = some (false, true) ∧
    (initiateCombat runOracle 10 heroP [bruteE] 20 (fun _ => 1)).map
        (fun r => (r.1, r.2.1.health)) = some (Outcome.defeat, 0) := by
  exact ⟨rfl, rfl⟩

/-- C2 (code bug): the defending flag is cleared at the end of the same
turn on which `defend` was chosen (`_handle_player_turn` line 134 runs in
the same invocation as `player.defend()`), so no incoming attack ever
sees doubled defense.  After a defend turn the flag is already `false`,
and the orc's following attack (attack power 12 against effective
defense 10) deals 2 damage, leaving health 98; had the flag survived
until the orc's attack, defense would have been 20 and health would have
stayed 100 (second conjunct). -/
theorem defend_cleared_before_enemy_acts :
    ((takeTurn defendOracle 5 stOrc).bind (fun st1 =>
        (takeTurn defendOracle 5 (advanceIdx st1)).map (fun st2 =>
          (st1.player.defending, st2.player.health)))) = some (false, 98) ∧
    (playerTakeDamage 12 (playerDefend heroP)).health = 100 := by
  exact ⟨rfl, rfl⟩

/-- C3 counterexample: the combat loop need not terminate, and in
particular exceeds the claimed bound of total combined health divided by
the minimum per-turn damage.  Against the goblin fixture the total
combined health is 120, so the claimed bound is at most 120 turns for
any positive per-turn damage; but with the player defending every turn
(and the goblin's 5 attack fully absorbed by effective defense 10) no
turn changes any health, and after 130 turns the encounter is still
ongoing — the same round repeats forever. -/
theorem combat_loop_unbounded_cex :
    combatLoopAux defendOracle 130 stGob = none := by
  decide

/-- C7 (code bug): `complete_objective` on an active quest with an
unknown objective id changes no state but returns `True` (the
`return True` at story.py line 107 is reached whether or not
`update_objective` found the id), while the claim and spec say it
returns false.  The other clauses of the claim hold: a quest that is not
active yields `False` with no change, and completing the last objective
marks the quest completed, grants the reward experience through
`gain_experience`, and moves the quest out of the active set. -/
theorem complete_objective_unknown_id_returns_true :
    completeObjective heroA storyActive "q1" "bogus"
      = (heroA, storyActive, true) ∧
    completeObjective heroA storyEmpty "q1" "o1" = (heroA, storyEmpty, false) ∧
    (completeObjective heroA storyActive "q1" "o1").2.1
      = { questData := [("q1",
            { objectives := [("o1", true)], rewardXp := 50
              initialQuest := false })]
          quests := []
          completedQuests := [("q1",
            { questId := "q1", objectives := [("o1", true)], rewardXp := 50
              status := QStatus.completed })]
          flags := [] } ∧
    (completeObjective heroA storyActive "q1" "o1").1 = gainExperience 50 heroA ∧
    (completeObjective heroA storyActive "q1" "o1").2.2 = true := by
  refine ⟨by decide, by decide, by decide, rfl, by decide⟩

/-- The quest record that reappears in the active collection after `q1`
is completed and restarted: its objectives are the template's shared
dict, already all completed, while its status is freshly `active`. -/
def q1Restarted : QuestS :=
  { questId := "q1", objectives := [("o1", true)], rewardXp := 50
    status := QStatus.active }

/-- C6 counterexample: both halves of the claim fail.  Starting quest
`q1`, completing its single objective (which moves it to the completed
collection and, through the shared objectives dict, marks the template's
objective completed) and then calling `start_quest("q1")` again — which
only checks the active collection — produces a reachable story state in
which `q1` is present in both collections at once, and the active
instance has status `active` although every one of its objectives is
marked completed. -/
theorem quest_in_both_collections_cex :
    storyBoth.quests.lookup "q1" = some q1Restarted ∧
    (storyBoth.completedQuests.lookup "q1").isSome = true ∧
    questIsCompleted q1Restarted = true ∧
    q1Restarted.status = QStatus.active ∧
    StoryReachable questData1 storyBoth := by
  refine ⟨by decide, by decide, by decide, by decide, ?_⟩
  exact StoryReachable.start _ _
    (StoryReachable.complete _ _ _ _ (StoryReachable.start _ _ StoryReachable.init))

/-- C8 counterexample: the level-up comparison does not use the floored
threshold.  At level 2 the threshold is `100 * 2^1.5 = 282.84…`, whose
floor is 282 (`282² ≤ 80000 < 283²`), so per the claim an award reaching
experience 282 must level the player up; the code compares against the
unfloored value (`282² < 80000`), and the player stays at level 2. -/
theorem level_threshold_not_floored_cex :
    (gainExperience 282 pl2).level = 2 ∧
    (gainExperience 282 pl2).experience = 282 ∧
    282 * 282 ≤ 10000 * 2 ^ 3 ∧
    10000 * 2 ^ 3 < 283 * 283 ∧
    282 * 282 < 10000 * 2 ^ 3 := by
  refine ⟨?_, ?_, by norm_num, by norm_num, by norm_num⟩
  · rw [gainExperience, levelLoop]
    norm_num [levelUpReady, pl2, newPlayer]
  · rw [gainExperience, levelLoop]
    norm_num [levelUpReady, pl2, newPlayer]

/-- Characterisation of the level-up `while` loop: the level only grows,
experience is untouched, the threshold was met at every level passed
through and is not met at the final level, a level-up fully restores
health and mana, and every stat grows by its fixed delta per level
gained. -/
theorem levelLoop_spec (e : Nat) (p : PlayerS) :
    p.level ≤ (levelLoop e p).level ∧
    (levelLoop e p).experience = p.experience ∧
    (∀ k, p.level ≤ k → k < (levelLoop e p).level → 10000 * k ^ 3 ≤ e * e) ∧
    e * e < 10000 * (levelLoop e p).level ^ 3 ∧
    ((levelLoop e p).level = p.level → levelLoop e p = p) ∧
    (p.level < (levelLoop e p).level →
      (levelLoop e p).health = (levelLoop e p).maxHealth ∧
      (levelLoop e p).mana = (levelLoop e p).maxMana) ∧
    (levelLoop e p).maxHealth
      = p.maxHealth + 10 * (((levelLoop e p).level - p.level : Nat) : Int) ∧
    (levelLoop e p).maxMana
      = p.maxMana + 5 * (((levelLoop e p).level - p.level : Nat) : Int) ∧
    (levelLoop e p).attackPower
      = p.attackPower + 2 * (((levelLoop e p).level - p.level : Nat) : Int) ∧
    (levelLoop e p).defense
      = p.defense + (((levelLoop e p).level - p.level : Nat) : Int) ∧
    (levelLoop e p).strength
      = p.strength + (((levelLoop e p).level - p.level : Nat) : Int) ∧
    (levelLoop e p).dexterity
      = p.dexterity + (((levelLoop e p).level - p.level : Nat) : Int) ∧
    (levelLoop e p).intelligence
      = p.intelligence + (((levelLoop e p).level - p.level : Nat) : Int) := by
  by_cases hc : levelUpReady e p.level = true
  · rw [levelLoop, if_pos hc]
    have IH := levelLoop_spec e (levelUp p)
    obtain ⟨ih1, ih2, ih3, ih4, ih5, ih6, ih7, ih8, ih9, ih10, ih11, ih12, ih13⟩ := IH
    simp only [levelUp] at ih1 ih2 ih3 ih4 ih5 ih6 ih7 ih8 ih9 ih10 ih11 ih12 ih13 ⊢
    simp only [levelUpReady, decide_eq_true_eq] at hc
    refine ⟨by omega, by omega, ?_, ih4, ?_, ?_, by omega, by omega, by omega,
      by omega, by omega, by omega, by omega⟩
    · intro k hk1 hk2
      rcases Nat.eq_or_lt_of_le hk1 with h | h
      · exact h ▸ hc
      · exact ih3 k h hk2
    · intro h
      omega
    · intro _
      rcases Nat.eq_or_lt_of_le ih1 with h | h
      · have hq := ih5 h.symm
        rw [hq]
        exact ⟨rfl, rfl⟩
      · exact ih6 h
  · rw [levelLoop, if_neg hc]
    simp only [levelUpReady, decide_eq_true_eq] at hc
    refine ⟨le_refl _, rfl, ?_, by omega, fun _ => rfl, ?_, by omega, by omega,
      by omega, by omega, by omega, by omega, by omega⟩
    · intro k hk1 hk2
      omega
    · intro h
      omega
termination_by e * e + 1 - p.level
decreasing_by
  simp only [levelUpReady, decide_eq_true_eq, levelUp] at *
  have h1 : p.level ≤ p.level ^ 3 := Nat.le_self_pow (by norm_num) _
  omega

/-- C8 (amended): an experience award of a non-negative amount adds the
amount to accumulated experience and then levels up while accumulated
experience reaches `100 * level^1.5` — compared exactly, without
rounding (stated through the equivalent squared comparison
`e² ≥ 10000 * level³`).  Each level gained raises the level by one,
fully restores health and mana, and applies the deltas +10 max health,
+5 max mana, +2 attack, +1 each of defense, strength, dexterity and
intelligence; the loop can run several times in one award. -/
theorem gain_experience_exact (p : PlayerS) (amount : Nat) :
    (gainExperience amount p).experience = p.experience + amount ∧
    p.level ≤ (gainExperience amount p).level ∧
    (∀ k, p.level ≤ k → k < (gainExperience amount p).level →
      10000 * k ^ 3 ≤ (p.experience + amount) * (p.experience + amount)) ∧
    (p.experience + amount) * (p.experience + amount)
      < 10000 * (gainExperience amount p).level ^ 3 ∧
    (p.level < (gainExperience amount p).level →
      (gainExperience amount p).health = (gainExperience amount p).maxHealth ∧
      (gainExperience amount p).mana = (gainExperience amount p).maxMana) ∧
    (gainExperience amount p).maxHealth
      = p.maxHealth + 10 * (((gainExperience amount p).level - p.level : Nat) : Int) ∧
    (gainExperience amount p).maxMana
      = p.maxMana + 5 * (((gainExperience amount p).level - p.level : Nat) : Int) ∧
    (gainExperience amount p).attackPower
      = p.attackPower + 2 * (((gainExperience amount p).level - p.level : Nat) : Int) ∧
    (gainExperience amount p).defense
      = p.defense + (((gainExperience amount p).level - p.level : Nat) : Int) ∧
    (gainExperience amount p).strength
      = p.strength + (((gainExperience amount p).level - p.level : Nat) : Int) ∧
    (gainExperience amount p).dexterity
      = p.dexterity + (((gainExperience amount p).level - p.level : Nat) : Int) ∧
    (gainExperience amount p).intelligence
      = p.intelligence + (((gainExperience amount p).level - p.level : Nat) : Int) := by
  have H := levelLoop_spec (p.experience + amount)
    { p with experience := p.experience + amount }
  obtain ⟨h1, h2, h3, h4, h5, h6, h7, h8, h9, h10, h11, h12, h13⟩ := H
  exact ⟨h2, h1, h3, h4, h6, h7, h8, h9, h10, h11, h12, h13⟩

/-- Helper: a cube bounded by 2 at the base cannot exceed the level-2
threshold. -/
theorem cube_bound_aux (x : Nat) (hle : x ≤ 2) (h : 300 * 300 < 10000 * x ^ 3) :
    False := by
  have hcube : x ^ 3 ≤ 2 ^ 3 := Nat.pow_le_pow_left hle 3
  omega

/-- Witness for C8 at the level-2 fixture with an award of 300: the
threshold at level 2 is met (`300² ≥ 80000`), experience accumulates to
300, and health is fully restored by the level-up. -/
theorem gain_experience_exact_witness :
    (gainExperience 300 pl2).experience = pl2.experience + 300 ∧
    10000 * 2 ^ 3 ≤ (pl2.experience + 300) * (pl2.experience + 300) ∧
    (gainExperience 300 pl2).health = (gainExperience 300 pl2).maxHealth := by
  have H := gain_experience_exact pl2 300
  have he : pl2.experience + 300 = 300 := by decide
  have hp : pl2.level = 2 := by decide
  have hlevel : 2 < (gainExperience 300 pl2).level := by
    by_contra hc
    push_neg at hc
    have h4 := H.2.2.2.1
    rw [he] at h4
    exact cube_bound_aux _ hc h4
  refine ⟨H.1, ?_, (H.2.2.2.2.1 (by rw [hp]; exact hlevel)).1⟩
  exact H.2.2.1 2 hp.le hlevel

/-- A dialogue branch requiring a story flag that is never set in the
fixtures. -/
def branchNeedsFlag : DialogueBranch :=
  { requiresFlag := some "met_king", requiresQuestActive := none, lines := [] }

/-- A dialogue branch with no preconditions. -/
def branchFree : DialogueBranch :=
  { requiresFlag := none, requiresQuestActive := none, lines := [] }

/-- C9: dialogue branches are evaluated in declared order and the first
branch whose preconditions hold is selected; when a branch is selected
every earlier branch failed its check, when none is selected every
branch failed and the dialogue emits "nothing to say" without changing
any state; and for an NPC whose first branch requires an unset flag
while the second requires nothing, the second branch is selected. -/
theorem dialogue_first_qualifying_branch :
    (∀ (s : StoryS) (bs : List (String × DialogueBranch)) (b : DialogueBranch),
        selectBranch s bs = some b →
        ∃ i, ∃ h : i < bs.length, (bs.get ⟨i, h⟩).2 = b ∧
          branchOk s b = true ∧
          ∀ j (hj : j < bs.length), j < i → branchOk s (bs.get ⟨j, hj⟩).2 = false) ∧
    (∀ (s : StoryS) (bs : List (String × DialogueBranch)),
        selectBranch s bs = none →
        ∀ i (h : i < bs.length), branchOk s (bs.get ⟨i, h⟩).2 = false) ∧
    (∀ dd ch pl s npcId bs,
        dd.lookup npcId = some bs → selectBranch s bs = none →
        handleDialogue dd ch pl s npcId = (pl, s, DialogueResult.nothingToSay)) ∧
    selectBranch storyEmpty [("first", branchNeedsFlag), ("second", branchFree)]
      = some branchFree := by
  refine ⟨?_, ?_, ?_, by decide⟩
  · intro s bs
    induction bs with
    | nil => intro b h; simp [selectBranch] at h
    | cons hd tl ih =>
      intro b h
      by_cases hok : branchOk s hd.2 = true
      · simp only [selectBranch, if_pos hok, Option.some.injEq] at h
        subst h
        exact ⟨0, Nat.succ_pos _, rfl, hok, fun j hj hji => absurd hji (Nat.not_lt_zero j)⟩
      · simp only [selectBranch, if_neg hok] at h
        obtain ⟨i, hlen, heq, hokb, hprev⟩ := ih b h
        refine ⟨i + 1, Nat.succ_lt_succ hlen, by simpa using heq, hokb, ?_⟩
        intro j hj hji
        cases j with
        | zero => simpa using Bool.not_eq_true _ ▸ (Bool.eq_false_iff.mpr (fun hc => hok hc))
        | succ j' =>
          have hj' : j' < tl.length := by simpa using Nat.lt_of_succ_lt_succ hj
          simpa using hprev j' hj' (Nat.lt_of_succ_lt_succ hji)
  · intro s bs
    induction bs with
    | nil => intro _ i h; simp at h
    | cons hd tl ih =>
      intro h i hi
      by_cases hok : branchOk s hd.2 = true
      · simp only [selectBranch, if_pos hok] at h
        simp at h
      · simp only [selectBranch, if_neg hok] at h
        cases i with
        | zero => simpa using Bool.eq_false_iff.mpr (fun hc => hok hc)
        | succ i' =>
          have hi' : i' < tl.length := by simpa using Nat.lt_of_succ_lt_succ hi
          simpa using ih h i' hi'
  · intro dd ch pl s npcId bs h1 h2
    simp [handleDialogue, h1, h2]

/-- Witness for C9: an NPC whose only branch requires the unset flag has
nothing to say and the state is untouched; the two-branch fixture
selects the unconditional second branch. -/
theorem dialogue_first_qualifying_branch_witness :
    handleDialogue [("king", [("only", branchNeedsFlag)])] (fun _ => 0)
        heroA storyEmpty "king" = (heroA, storyEmpty, DialogueResult.nothingToSay) ∧
    selectBranch storyEmpty [("first", branchNeedsFlag), ("second", branchFree)]
      = some branchFree :=
  ⟨dialogue_first_qualifying_branch.2.2.1 [("king", [("only", branchNeedsFlag)])]
      (fun _ => 0) heroA storyEmpty "king" [("only", branchNeedsFlag)]
      (by decide) (by decide),
   dialogue_first_qualifying_branch.2.2.2⟩

/-- Helper: a successful dict lookup returns an entry of the list. -/
theorem lookup_mem {α : Type} {l : List (String × α)} {k : String} {v : α}
    (h : l.lookup k = some v) : (k, v) ∈ l := by
  induction l with
  | nil => simp [List.lookup] at h
  | cons hd tl ih =>
    obtain ⟨k', v'⟩ := hd
    simp only [List.lookup] at h
    split at h
    · obtain rfl : v' = v := by simpa using h
      have hk : k = k' := by
        rename_i hbeq
        exact eq_of_beq hbeq
      subst hk
      exact List.mem_cons_self _ _
    · exact List.mem_cons_of_mem _ (ih h)

/-- Helper: an entry of `assocSet l k v` is either the new `(k, v)` entry
or an entry of `l`. -/
theorem mem_assocSet {α : Type} {l : List (String × α)} {k : String} {v : α}
    {e : String × α} (h : e ∈ assocSet l k v) : e = (k, v) ∨ e ∈ l := by
  induction l with
  | nil => simpa [assocSet] using h
  | cons hd tl ih =>
    obtain ⟨k', v'⟩ := hd
    simp only [assocSet] at h
    split at h
    · rcases List.mem_cons.mp h with h1 | h1
      · exact Or.inl h1
      · exact Or.inr (List.mem_cons_of_mem _ h1)
    · rcases List.mem_cons.mp h with h1 | h1
      · exact Or.inr (h1 ▸ List.mem_cons_self _ _)
      · rcases ih h1 with h2 | h2
        · exact Or.inl h2
        · exact Or.inr (List.mem_cons_of_mem _ h2)

/-- Helper: an entry of `assocErase l k` is an entry of `l`. -/
theorem mem_assocErase {α : Type} {l : List (String × α)} {k : String}
    {e : String × α} (h : e ∈ assocErase l k) : e ∈ l := by
  induction l with
  | nil => simpa [assocErase] using h
  | cons hd tl ih =>
    obtain ⟨k', v'⟩ := hd
    simp only [assocErase] at h
    split at h
    · exact List.mem_cons_of_mem _ h
    · rcases List.mem_cons.mp h with h1 | h1
      · exact h1 ▸ List.mem_cons_self _ _
      · exact List.mem_cons_of_mem _ (ih h1)

/-- Helper: deleting a key right after setting it undoes the set (dict
assignment replaces the first occurrence, which `del` then removes). -/
theorem assocErase_assocSet {α : Type} (l : List (String × α)) (k : String)
    (v : α) : assocErase (assocSet l k v) k = assocErase l k := by
  induction l with
  | nil => simp [assocSet, assocErase]
  | cons hd tl ih =>
    obtain ⟨k', v'⟩ := hd
    by_cases hk : k' = k
    · subst hk
      simp [assocSet, assocErase]
    · simp only [assocSet, if_neg hk, assocErase, ih]

/-- Helper: looking up a key right after setting it returns the new
value. -/
theorem lookup_assocSet_self {α : Type} (l : List (String × α)) (k : String)
    (v : α) : (assocSet l k v).lookup k = some v := by
  induction l with
  | nil => simp [assocSet, List.lookup]
  | cons hd tl ih =>
    obtain ⟨k', v'⟩ := hd
    by_cases hk : k' = k
    · subst hk
      simp [assocSet, List.lookup]
    · have hbeq : (k == k') = false := by
        simp [BEq.beq]
        exact fun hc => hk hc.symm
      simp only [assocSet, if_neg hk, List.lookup, hbeq, ih]

/-- Helper: `update_objective` never changes a quest's status. -/
theorem updateObjective_status (oid : String) (q : QuestS) :
    (updateObjective oid q).1.status = q.status := by
  unfold updateObjective
  split <;> rfl

/-- Helper: a failed `update_objective` leaves the quest unchanged. -/
theorem updateObjective_not_found {oid : String} {q : QuestS}
    (h : (updateObjective oid q).2 = false) : (updateObjective oid q).1 = q := by
  unfold updateObjective at h ⊢
  by_cases hc : (q.objectives.lookup oid).isSome = true
  · rw [if_pos hc] at h
    simp at h
  · rw [if_neg hc]

/-- Helper: completion is a function of the objectives only. -/
theorem questIsCompleted_set_status (q : QuestS) (st : QStatus) :
    questIsCompleted { q with status := st } = questIsCompleted q := rfl

/-- Helper: a quest with an objective still marked `false` is not
completed. -/
theorem not_completed_of_open_objective {obs : List (String × Bool)}
    (ob : String × Bool) (hmem : ob ∈ obs) (hf : ob.2 = false)
    (q : QuestS) (hobj : q.objectives = obs) : questIsCompleted q = false := by
  rw [Bool.eq_false_iff]
  intro hall
  rw [questIsCompleted, hobj, List.all_eq_true] at hall
  have := hall ob hmem
  rw [hf] at this
  simp at this

/-- Helper: every quest produced by `_load_initial_quests` is active and
carries the objectives of a template with its key. -/
theorem mem_loadInitialQuests {qd : List (String × QuestTemplate)} :
    ∀ (l : List (String × QuestTemplate)) (acc : List (String × QuestS)),
    (∀ e ∈ acc, e.2.status = QStatus.active ∧
      ∃ t ∈ qd, e.1 = t.1 ∧ e.2.objectives = t.2.objectives) →
    (∀ t ∈ l, t ∈ qd) →
    ∀ e ∈ l.foldl (fun acc qt =>
        if qt.2.initialQuest then
          assocSet acc qt.1 ({ questFromTemplate qt.1 qt.2 with status := QStatus.active })
        else acc) acc,
      e.2.status = QStatus.active ∧
        ∃ t ∈ qd, e.1 = t.1 ∧ e.2.objectives = t.2.objectives := by
  intro l
  induction l with
  | nil => intro acc hacc _ e he; exact hacc e he
  | cons hd tl ih =>
    intro acc hacc hsub e he
    simp only [List.foldl_cons] at he
    refine ih _ ?_ (fun t ht => hsub t (List.mem_cons_of_mem _ ht)) e he
    intro e' he'
    by_cases hinit : hd.2.initialQuest
    · rw [if_pos hinit] at he'
      rcases mem_assocSet he' with h1 | h1
      · subst h1
        exact ⟨rfl, hd, hsub hd (List.mem_cons_self _ _), rfl, rfl⟩
      · exact hacc e' h1
    · rw [if_neg hinit] at he'
      exact hacc e' he'

/-- Helper: setting one key leaves every other key's lookup unchanged. -/
theorem lookup_assocSet_ne {α : Type} (l : List (String × α)) {k k' : String}
    (v : α) (hne : k' ≠ k) : (assocSet l k v).lookup k' = l.lookup k' := by
  induction l with
  | nil =>
    simp only [assocSet, List.lookup]
    have hbeq : (k' == k) = false := by simpa using hne
    rw [hbeq]
  | cons hd tl ih =>
    obtain ⟨a, b⟩ := hd
    by_cases ha : a = k
    · subst ha
      simp only [assocSet, if_pos rfl, List.lookup]
      have hbeq : (k' == a) = false := by simpa using hne
      rw [hbeq]
    · simp only [assocSet, if_neg ha, List.lookup]
      cases hbeq : (k' == a) with
      | true => rfl
      | false => exact ih

/-- Helper: a key outside the key list looks up to nothing. -/
theorem lookup_eq_none_of_not_mem_keys {α : Type} {l : List (String × α)}
    {k : String} (h : k ∉ l.map Prod.fst) : l.lookup k = none := by
  induction l with
  | nil => rfl
  | cons hd tl ih =>
    obtain ⟨a, b⟩ := hd
    simp only [List.map_cons, List.mem_cons, not_or] at h
    simp only [List.lookup]
    have hbeq : (k == a) = false := by simpa using h.1
    rw [hbeq]
    exact ih h.2

/-- Helper: with no duplicate keys, membership determines the lookup. -/
theorem lookup_of_mem_nodup {α : Type} {l : List (String × α)}
    (hnd : (l.map Prod.fst).Nodup) {e : String × α} (h : e ∈ l) :
    l.lookup e.1 = some e.2 := by
  induction l with
  | nil => simp at h
  | cons hd tl ih =>
    obtain ⟨a, b⟩ := hd
    simp only [List.map_cons, List.nodup_cons] at hnd
    rcases List.mem_cons.mp h with h1 | h1
    · subst h1
      simp [List.lookup]
    · have hne : e.1 ≠ a := by
        intro hc
        exact hnd.1 (hc ▸ List.mem_map_of_mem Prod.fst h1)
      simp only [List.lookup]
      have hbeq : (e.1 == a) = false := by simpa using hne
      rw [hbeq]
      exact ih hnd.2 h1

/-- Helper: `assocSet` adds at most the new key to the key list. -/
theorem mem_keys_assocSet {α : Type} {l : List (String × α)} {k x : String}
    {v : α} (h : x ∈ (assocSet l k v).map Prod.fst) :
    x ∈ l.map Prod.fst ∨ x = k := by
  induction l with
  | nil =>
    simp [assocSet] at h
    exact Or.inr h
  | cons hd tl ih =>
    obtain ⟨a, b⟩ := hd
    by_cases ha : a = k
    · subst ha
      have hset : assocSet ((a, b) :: tl) a v = (a, v) :: tl := by
        simp [assocSet]
      rw [hset] at h
      simp only [List.map_cons, List.mem_cons] at h ⊢
      exact Or.inl h
    · simp only [assocSet, if_neg ha, List.map_cons, List.mem_cons] at h ⊢
      rcases h with h | h
      · exact Or.inl (Or.inl h)
      · rcases ih h with h2 | h2
        · exact Or.inl (Or.inr h2)
        · exact Or.inr h2

/-- Helper: `assocSet` preserves key uniqueness. -/
theorem nodup_keys_assocSet {α : Type} {l : List (String × α)} {k : String}
    {v : α} (hnd : (l.map Prod.fst).Nodup) :
    ((assocSet l k v).map Prod.fst).Nodup := by
  induction l with
  | nil => simp [assocSet]
  | cons hd tl ih =>
    obtain ⟨a, b⟩ := hd
    simp only [List.map_cons, List.nodup_cons] at hnd
    by_cases ha : a = k
    · subst ha
      have hset : assocSet ((a, b) :: tl) a v = (a, v) :: tl := by
        simp [assocSet]
      rw [hset]
      simp only [List.map_cons, List.nodup_cons]
      exact ⟨hnd.1, hnd.2⟩
    · simp only [assocSet, if_neg ha, List.map_cons, List.nodup_cons]
      refine ⟨?_, ih hnd.2⟩
      intro hc
      rcases mem_keys_assocSet hc with h2 | h2
      · exact hnd.1 h2
      · exact ha h2

/-- Helper: `assocErase` only removes keys. -/
theorem mem_keys_assocErase {α : Type} {l : List (String × α)} {k x : String}
    (h : x ∈ (assocErase l k).map Prod.fst) : x ∈ l.map Prod.fst := by
  induction l with
  | nil => simpa [assocErase] using h
  | cons hd tl ih =>
    obtain ⟨a, b⟩ := hd
    by_cases ha : a = k
    · simp only [assocErase, if_pos ha] at h
      simp only [List.map_cons, List.mem_cons]
      exact Or.inr h
    · simp only [assocErase, if_neg ha, List.map_cons, List.mem_cons] at h ⊢
      rcases h with h | h
      · exact Or.inl h
      · exact Or.inr (ih h)

/-- Helper: `assocErase` preserves key uniqueness. -/
theorem nodup_keys_assocErase {α : Type} {l : List (String × α)} {k : String}
    (hnd : (l.map Prod.fst).Nodup) : ((assocErase l k).map Prod.fst).Nodup := by
  induction l with
  | nil => simpa [assocErase] using hnd
  | cons hd tl ih =>
    obtain ⟨a, b⟩ := hd
    simp only [List.map_cons, List.nodup_cons] at hnd
    by_cases ha : a = k
    · simp only [assocErase, if_pos ha]
      exact hnd.2
    · simp only [assocErase, if_neg ha, List.map_cons, List.nodup_cons]
      exact ⟨fun hc => hnd.1 (mem_keys_assocErase hc), ih hnd.2⟩

/-- Helper: with no duplicate keys, deleting a key removes it from the
dict entirely. -/
theorem lookup_assocErase_self_nodup {α : Type} {l : List (String × α)}
    {k : String} (hnd : (l.map Prod.fst).Nodup) :
    (assocErase l k).lookup k = none := by
  induction l with
  | nil => rfl
  | cons hd tl ih =>
    obtain ⟨a, b⟩ := hd
    simp only [List.map_cons, List.nodup_cons] at hnd
    by_cases ha : a = k
    · subst ha
      simp only [assocErase, if_pos rfl]
      exact lookup_eq_none_of_not_mem_keys hnd.1
    · simp only [assocErase, if_neg ha, List.lookup]
      have hbeq : (k == a) = false := by
        simpa using fun hc => ha hc.symm
      rw [hbeq]
      exact ih hnd.2

/-- Helper: deleting a key leaves every other key's lookup unchanged. -/
theorem lookup_assocErase_ne {α : Type} {l : List (String × α)}
    {k k' : String} (hne : k' ≠ k) :
    (assocErase l k).lookup k' = l.lookup k' := by
  induction l with
  | nil => rfl
  | cons hd tl ih =>
    obtain ⟨a, b⟩ := hd
    by_cases ha : a = k
    · subst ha
      simp only [assocErase, if_pos rfl, List.lookup]
      have hbeq : (k' == a) = false := by simpa using hne
      rw [hbeq]
      rfl
    · simp only [assocErase, if_neg ha, List.lookup]
      cases hbeq : (k' == a) with
      | true => rfl
      | false => exact ih

/-- Helper: the initial active set has no duplicate keys. -/
theorem nodup_keys_loadInitialQuests (qd : List (String × QuestTemplate)) :
    ((loadInitialQuests qd).map Prod.fst).Nodup := by
  suffices H : ∀ (l : List (String × QuestTemplate)) (acc : List (String × QuestS)),
      (acc.map Prod.fst).Nodup →
      ((l.foldl (fun acc qt =>
        if qt.2.initialQuest then
          assocSet acc qt.1 ({ questFromTemplate qt.1 qt.2 with status := QStatus.active })
        else acc) acc).map Prod.fst).Nodup by
    exact H qd [] (by simp)
  intro l
  induction l with
  | nil => intro acc h; exact h
  | cons hd tl ih =>
    intro acc h
    simp only [List.foldl_cons]
    apply ih
    by_cases hinit : hd.2.initialQuest
    · rw [if_pos hinit]
      exact nodup_keys_assocSet h
    · rw [if_neg hinit]
      exact h

/-- Helper: a successful `update_objective` marks exactly the named
objective in the shared dict. -/
theorem updateObjective_found {oid : String} {q : QuestS}
    (h : (updateObjective oid q).2 = true) :
    (updateObjective oid q).1
      = { q with objectives := assocSet q.objectives oid true } := by
  unfold updateObjective at h ⊢
  by_cases hc : (q.objectives.lookup oid).isSome = true
  · rw [if_pos hc]
  · rw [if_neg hc] at h
    simp at h

/-- Helper: marking one objective completed cannot un-complete a fully
completed objectives dict. -/
theorem all_assocSet_true {obs : List (String × Bool)} {oid : String}
    (h : obs.all (fun ob => ob.2) = true) :
    (assocSet obs oid true).all (fun ob => ob.2) = true := by
  induction obs with
  | nil => simp [assocSet]
  | cons hd tl ih =>
    obtain ⟨a, b⟩ := hd
    simp only [List.all_cons, Bool.and_eq_true] at h
    by_cases ha : a = oid
    · simp only [assocSet, if_pos ha, List.all_cons, Bool.and_eq_true]
      exact ⟨trivial, h.2⟩
    · simp only [assocSet, if_neg ha, List.all_cons, Bool.and_eq_true]
      exact ⟨h.1, ih h.2⟩

/-- The inductive story-state invariant: both collections are
duplicate-key free (as Python dicts are); every completed quest has
status `completed` with all objectives completed; every active quest has
status `active`; and every quest instance's objectives equal its
template's current objectives — the functional image of the source's
shared objectives dicts. -/
def StoryInv (s : StoryS) : Prop :=
  ((s.quests.map Prod.fst).Nodup ∧ (s.completedQuests.map Prod.fst).Nodup) ∧
  (∀ k q, s.completedQuests.lookup k = some q →
      q.status = QStatus.completed ∧ questIsCompleted q = true) ∧
  (∀ k q, s.quests.lookup k = some q → q.status = QStatus.active) ∧
  (∀ k q, s.quests.lookup k = some q →
      ∃ t, s.questData.lookup k = some t ∧ q.objectives = t.objectives) ∧
  (∀ k q, s.completedQuests.lookup k = some q →
      ∃ t, s.questData.lookup k = some t ∧ q.objectives = t.objectives)

/-- Helper: the initial story state satisfies the invariant (for quest
data with unique keys, as a Python dict always has). -/
theorem storyInv_init (qd : List (String × QuestTemplate))
    (hnd : (qd.map Prod.fst).Nodup) : StoryInv (initStory qd) := by
  refine ⟨⟨nodup_keys_loadInitialQuests qd, by simp [initStory]⟩, ?_, ?_, ?_, ?_⟩
  · intro k q h
    simp [initStory, List.lookup] at h
  · intro k q h
    have hmem := lookup_mem h
    exact (mem_loadInitialQuests qd [] (by simp) (fun t ht => ht) _ hmem).1
  · intro k q h
    have hmem := lookup_mem h
    obtain ⟨hstat, t, htmem, hkey, hobj⟩ :=
      mem_loadInitialQuests qd [] (by simp) (fun t ht => ht) _ hmem
    refine ⟨t.2, ?_, hobj⟩
    show qd.lookup k = some t.2
    rw [show k = t.1 from hkey]
    exact lookup_of_mem_nodup hnd htmem
  · intro k q h
    simp [initStory, List.lookup] at h

/-- Helper: `start_quest` preserves the invariant: the new instance is
active and carries the template's current objectives. -/
theorem storyInv_start (s : StoryS) (qid : String) (h : StoryInv s) :
    StoryInv (startQuest s qid).1 := by
  obtain ⟨⟨n1, n2⟩, hA, hB, hCA, hCC⟩ := h
  cases ht : s.questData.lookup qid with
  | none =>
    simp only [startQuest, ht]
    exact ⟨⟨n1, n2⟩, hA, hB, hCA, hCC⟩
  | some t =>
    by_cases hin : (s.quests.lookup qid).isSome = true
    · simp only [startQuest, ht, if_pos hin]
      exact ⟨⟨n1, n2⟩, hA, hB, hCA, hCC⟩
    · simp only [startQuest, ht, if_neg hin]
      refine ⟨⟨nodup_keys_assocSet n1, n2⟩, hA, ?_, ?_, hCC⟩
      · intro k q h
        dsimp only at h
        by_cases hk : k = qid
        · subst hk
          rw [lookup_assocSet_self] at h
          injection h with h
          subst h
          rfl
        · rw [lookup_assocSet_ne _ _ hk] at h
          exact hB k q h
      · intro k q h
        dsimp only at h
        by_cases hk : k = qid
        · subst hk
          rw [lookup_assocSet_self] at h
          injection h with h
          subst h
          exact ⟨t, ht, rfl⟩
        · rw [lookup_assocSet_ne _ _ hk] at h
          exact hCA k q h

/-- Helper: the shared write of a successful `update_objective`
preserves the invariant: the active entry stays active, the template's
objectives track the mutation, and an already-completed instance of the
same quest id cannot lose a completed flag. -/
theorem storyInv_shareObjectives {s : StoryS} {qid oid : String} {q : QuestS}
    (h : StoryInv s) (hq : s.quests.lookup qid = some q)
    (hup : (updateObjective oid q).2 = true) :
    StoryInv (shareObjectives s qid (updateObjective oid q).1) := by
  obtain ⟨⟨n1, n2⟩, hA, hB, hCA, hCC⟩ := h
  obtain ⟨t, ht, hobj⟩ := hCA qid q hq
  have hstat : (updateObjective oid q).1.status = q.status :=
    updateObjective_status oid q
  have hobj1 : (updateObjective oid q).1.objectives
      = assocSet q.objectives oid true := by
    rw [updateObjective_found hup]
  cases hcq : s.completedQuests.lookup qid with
  | none =>
    simp only [shareObjectives, ht, hcq]
    refine ⟨⟨nodup_keys_assocSet n1, n2⟩, ?_, ?_, ?_, ?_⟩
    · intro k q' h'
      dsimp only at h'
      exact hA k q' h'
    · intro k q' h'
      dsimp only at h'
      by_cases hk : k = qid
      · subst hk
        rw [lookup_assocSet_self] at h'
        injection h' with h'
        subst h'
        rw [hstat]
        exact hB k q hq
      · rw [lookup_assocSet_ne _ _ hk] at h'
        exact hB k q' h'
    · intro k q' h'
      dsimp only at h'
      by_cases hk : k = qid
      · subst hk
        rw [lookup_assocSet_self] at h'
        injection h' with h'
        subst h'
        exact ⟨_, lookup_assocSet_self _ _ _, rfl⟩
      · rw [lookup_assocSet_ne _ _ hk] at h'
        obtain ⟨t', ht', hobj'⟩ := hCA k q' h'
        exact ⟨t', by rw [lookup_assocSet_ne _ _ hk]; exact ht', hobj'⟩
    · intro k q' h'
      dsimp only at h'
      by_cases hk : k = qid
      · subst hk
        rw [hcq] at h'
        simp at h'
      · obtain ⟨t', ht', hobj'⟩ := hCC k q' h'
        exact ⟨t', by rw [lookup_assocSet_ne _ _ hk]; exact ht', hobj'⟩
  | some qc =>
    obtain ⟨t2, ht2, hobjC⟩ := hCC qid qc hcq
    have ht2t : t2 = t := by
      rw [ht] at ht2
      injection ht2 with ht2
      exact ht2.symm
    subst ht2t
    have hqcAll : questIsCompleted qc = true := (hA qid qc hcq).2
    simp only [shareObjectives, ht, hcq]
    refine ⟨⟨nodup_keys_assocSet n1, nodup_keys_assocSet n2⟩, ?_, ?_, ?_, ?_⟩
    · intro k q' h'
      dsimp only at h'
      by_cases hk : k = qid
      · subst hk
        rw [lookup_assocSet_self] at h'
        injection h' with h'
        subst h'
        refine ⟨(hA k qc hcq).1, ?_⟩
        show ((updateObjective oid q).1.objectives).all (fun ob => ob.2) = true
        rw [hobj1]
        have hqqc : q.objectives = qc.objectives := by
          rw [hobj, hobjC]
        rw [hqqc]
        exact all_assocSet_true hqcAll
      · rw [lookup_assocSet_ne _ _ hk] at h'
        exact hA k q' h'
    · intro k q' h'
      dsimp only at h'
      by_cases hk : k = qid
      · subst hk
        rw [lookup_assocSet_self] at h'
        injection h' with h'
        subst h'
        rw [hstat]
        exact hB k q hq
      · rw [lookup_assocSet_ne _ _ hk] at h'
        exact hB k q' h'
    · intro k q' h'
      dsimp only at h'
      by_cases hk : k = qid
      · subst hk
        rw [lookup_assocSet_self] at h'
        injection h' with h'
        subst h'
        exact ⟨_, lookup_assocSet_self _ _ _, rfl⟩
      · rw [lookup_assocSet_ne _ _ hk] at h'
        obtain ⟨t', ht', hobj'⟩ := hCA k q' h'
        exact ⟨t', by rw [lookup_assocSet_ne _ _ hk]; exact ht', hobj'⟩
    · intro k q' h'
      dsimp only at h'
      by_cases hk : k = qid
      · subst hk
        rw [lookup_assocSet_self] at h'
        injection h' with h'
        subst h'
        exact ⟨_, lookup_assocSet_self _ _ _, rfl⟩
      · rw [lookup_assocSet_ne _ _ hk] at h'
        obtain ⟨t', ht', hobj'⟩ := hCC k q' h'
        exact ⟨t', by rw [lookup_assocSet_ne _ _ hk]; exact ht', hobj'⟩

/-- Helper: `_complete_quest` preserves the invariant when the quest at
the id is present with all objectives completed. -/
theorem storyInv_completeQuest {s : StoryS} {qid : String} {q : QuestS}
    (pl : PlayerS) (h : StoryInv s) (hq : s.quests.lookup qid = some q)
    (hdone : questIsCompleted q = true) :
    StoryInv (completeQuest pl s qid).2 := by
  obtain ⟨⟨n1, n2⟩, hA, hB, hCA, hCC⟩ := h
  simp only [completeQuest, hq, Option.getD_some]
  refine ⟨⟨nodup_keys_assocErase n1, nodup_keys_assocSet n2⟩, ?_, ?_, ?_, ?_⟩
  · intro k q' h'
    dsimp only at h'
    by_cases hk : k = qid
    · subst hk
      rw [lookup_assocSet_self] at h'
      injection h' with h'
      subst h'
      exact ⟨rfl, hdone⟩
    · rw [lookup_assocSet_ne _ _ hk] at h'
      exact hA k q' h'
  · intro k q' h'
    dsimp only at h'
    by_cases hk : k = qid
    · subst hk
      rw [lookup_assocErase_self_nodup n1] at h'
      simp at h'
    · rw [lookup_assocErase_ne hk] at h'
      exact hB k q' h'
  · intro k q' h'
    dsimp only at h'
    by_cases hk : k = qid
    · subst hk
      rw [lookup_assocErase_self_nodup n1] at h'
      simp at h'
    · rw [lookup_assocErase_ne hk] at h'
      exact hCA k q' h'
  · intro k q' h'
    dsimp only at h'
    by_cases hk : k = qid
    · subst hk
      rw [lookup_assocSet_self] at h'
      injection h' with h'
      subst h'
      obtain ⟨t, ht, hobj⟩ := hCA k q hq
      exact ⟨t, ht, hobj⟩
    · rw [lookup_assocSet_ne _ _ hk] at h'
      exact hCC k q' h'

/-- Helper: `complete_objective` preserves the invariant. -/
theorem storyInv_completeObjective (pl : PlayerS) (s : StoryS)
    (qid oid : String) (h : StoryInv s) :
    StoryInv (completeObjective pl s qid oid).2.1 := by
  cases hq : s.quests.lookup qid with
  | none =>
    simp only [completeObjective, hq]
    exact h
  | some q =>
    by_cases hst : q.status = QStatus.active
    · simp only [completeObjective, hq, if_pos hst]
      by_cases hup : (updateObjective oid q).2 = true
      · rw [if_pos hup]
        have hs' := storyInv_shareObjectives h hq hup
        by_cases hdone : questIsCompleted (updateObjective oid q).1 = true
        · rw [if_pos hdone]
          dsimp only
          refine storyInv_completeQuest pl hs' ?_ hdone
          show ((shareObjectives s qid (updateObjective oid q).1).quests).lookup qid
            = some (updateObjective oid q).1
          obtain ⟨t, ht, _⟩ := h.2.2.2.1 qid q hq
          cases hcq : s.completedQuests.lookup qid <;>
            simp only [shareObjectives, ht, hcq] <;>
            exact lookup_assocSet_self _ _ _
        · rw [if_neg hdone]
          exact hs'
      · rw [if_neg hup]
        exact h
    · simp only [completeObjective, hq, if_neg hst]
      exact h

/-- Helper: every reachable story state satisfies the invariant. -/
theorem story_invariant_aux (qd : List (String × QuestTemplate))
    (hnd : (qd.map Prod.fst).Nodup) (s : StoryS)
    (hreach : StoryReachable qd s) : StoryInv s := by
  induction hreach with
  | init => exact storyInv_init qd hnd
  | start s qid hr ih => exact storyInv_start s qid ih
  | complete s pl qid oid hr ih => exact storyInv_completeObjective pl s qid oid ih

/-- C6 (amended): in every story state reachable from quest data with
unique keys, every quest in the completed collection has status
`completed` with all of its objectives completed, and every quest in the
active collection has status `active` — so a quest's status is
`completed` only if all its objectives are completed.  The claim's other
directions fail on the code: because quest instances share the
template's objectives dicts, a completed-then-restarted quest sits in
the active collection with status `active` although all its objectives
are completed, and its id is simultaneously in both collections (see the
counterexample). -/
theorem story_collections_invariant (qd : List (String × QuestTemplate))
    (hnd : (qd.map Prod.fst).Nodup) (s : StoryS)
    (hreach : StoryReachable qd s) :
    (∀ k q, s.completedQuests.lookup k = some q →
        q.status = QStatus.completed ∧ questIsCompleted q = true) ∧
    (∀ k q, s.quests.lookup k = some q → q.status = QStatus.active) :=
  ⟨(story_invariant_aux qd hnd s hreach).2.1,
   (story_invariant_aux qd hnd s hreach).2.2.1⟩

/-- The quest record `start_quest` puts in the active set for the
`questData1` fixture. -/
def q1Active : QuestS :=
  { questId := "q1", objectives := [("o1", false)], rewardXp := 50
    status := QStatus.active }

/-- The completed `q1` record sitting in the completed collection of
`storyDone`. -/
def q1Done : QuestS :=
  { questId := "q1", objectives := [("o1", true)], rewardXp := 50
    status := QStatus.completed }

/-- Witness for C6 (amended) at two reachable states: after completing
`q1` the completed entry is `completed` with all objectives done, and
right after starting `q1` the active entry has status `active`. -/
theorem story_collections_invariant_witness :
    q1Done.status = QStatus.completed ∧ questIsCompleted q1Done = true ∧
    q1Active.status = QStatus.active := by
  have H := story_collections_invariant questData1 (by decide) storyDone
    (StoryReachable.complete _ _ _ _ (StoryReachable.start _ _ StoryReachable.init))
  have H2 := story_collections_invariant questData1 (by decide) storyActive
    (StoryReachable.start _ _ StoryReachable.init)
  have h1 := H.1 "q1" q1Done (by decide)
  exact ⟨h1.1, h1.2, H2.2 "q1" q1Active (by decide)⟩

/-- Helper: the loop's post-combat step reports either victory or
defeat — there is no third terminal value. -/
theorem finishCombat_outcome (st : CombatState) :
    (finishCombat st).1 = Outcome.victory ∨ (finishCombat st).1 = Outcome.defeat := by
  unfold finishCombat
  split
  · exact Or.inl rfl
  · exact Or.inr rfl

/-- Helper: advancing the turn index does not change any health. -/
theorem totalHealth_advanceIdx (st : CombatState) :
    totalHealth (advanceIdx st) = totalHealth st := rfl

/-- C3 (amended): whenever the combat loop terminates it reports
`Victory` or `Defeat` — flee never produces a terminal state — and it
need not terminate at all; but along any run in which every turn taken
from an ongoing state strictly decreases the total combined health
(stated through an inductive invariant `I` on states), the loop
terminates within total-combined-health turns. -/
theorem combat_loop_terminal_amended :
    (∀ (o : CombatOracle) (fuel : Nat) (st : CombatState)
        (r : Outcome × PlayerS × List EnemyS),
        combatLoopAux o fuel st = some r →
        r.1 = Outcome.victory ∨ r.1 = Outcome.defeat) ∧
    (∀ (o : CombatOracle) (I : CombatState → Prop),
        (∀ t, I t → combatOngoing t = true → ∀ f : Nat, 1 ≤ f →
          ∃ t1, takeTurn o f t = some t1 ∧ totalHealth t1 < totalHealth t ∧
            I (advanceIdx t1)) →
        ∀ (fuel : Nat) (st : CombatState), I st → totalHealth st < fuel →
          ∃ r, combatLoopAux o fuel st = some r) := by
  constructor
  · intro o fuel
    induction fuel with
    | zero =>
      intro st r h
      simp [combatLoopAux] at h
    | succ n ih =>
      intro st r h
      simp only [combatLoopAux] at h
      by_cases hon : combatOngoing st = true
      · rw [if_pos hon] at h
        cases htk : takeTurn o (n + 1) st with
        | none => rw [htk] at h; simp at h
        | some st1 =>
          rw [htk] at h
          dsimp only at h
          by_cases hend : (!playerIsAlive st1.player || !st1.enemies.any enemyIsAlive) = true
          · rw [if_pos hend] at h
            obtain rfl : finishCombat st1 = r := by simpa using h
            exact finishCombat_outcome st1
          · rw [if_neg hend] at h
            exact ih (advanceIdx st1) r h
      · rw [if_neg hon] at h
        obtain rfl : finishCombat st = r := by simpa using h
        exact finishCombat_outcome st
  · intro o I hstep fuel
    induction fuel with
    | zero =>
      intro st _ hlt
      omega
    | succ n ih =>
      intro st hI hlt
      by_cases hon : combatOngoing st = true
      · obtain ⟨t1, ht1, hdec, hI1⟩ := hstep st hI hon (n + 1) (by omega)
        by_cases hend : (!playerIsAlive t1.player || !t1.enemies.any enemyIsAlive) = true
        · refine ⟨finishCombat t1, ?_⟩
          simp only [combatLoopAux]
          rw [if_pos hon, ht1]
          dsimp only
          rw [if_pos hend]
        · obtain ⟨r, hr⟩ := ih (advanceIdx t1) hI1
            (by rw [totalHealth_advanceIdx]; omega)
          refine ⟨r, ?_⟩
          simp only [combatLoopAux]
          rw [if_pos hon, ht1]
          dsimp only
          rw [if_neg hend]
          exact hr
      · refine ⟨finishCombat st, ?_⟩
        simp only [combatLoopAux]
        rw [if_neg hon]

/-- A weak base enemy the default player kills in one attack. -/
def bruteW : EnemyS := enemyInit "e2" "brute" 10 60 0 0 5 .base

/-- An action source that always attacks the enemy named "brute". -/
def attackOracle : CombatOracle :=
  { actions := fun _ => .attack "brute", chance := fun _ => false }

/-- An encounter of the default player against `bruteW`, the player
winning initiative. -/
def stAtk : CombatState :=
  { player := heroP, enemies := [bruteW]
    turnOrder := getInitiative heroP [bruteW] 20 (fun _ => 1)
    idx := 0, promptCount := 0, drawCount := 0 }

/-- The state after the player's first attack in `stAtk`: the enemy is
dead. -/
def stAtkMid : CombatState :=
  { player := resetDefense heroP
    enemies := [{ bruteW with health := 0 }]
    turnOrder := getInitiative heroP [bruteW] 20 (fun _ => 1)
    idx := 0, promptCount := 1, drawCount := 0 }

/-- The (no longer ongoing) state after advancing past the player's
killing blow. -/
def stAtkEnd : CombatState := advanceIdx stAtkMid

/-- Witness for C3 (amended): the finished encounter reports victory or
defeat, and the one-hit-kill run terminates within the health bound
using the two-state invariant. -/
theorem combat_loop_terminal_amended_witness :
    ((finishCombat stAtkEnd).1 = Outcome.victory ∨
      (finishCombat stAtkEnd).1 = Outcome.defeat) ∧
    (combatLoopAux attackOracle 150 stAtk).isSome = true := by
  constructor
  · exact combat_loop_terminal_amended.1 attackOracle 1 stAtkEnd
      (finishCombat stAtkEnd) rfl
  · have hstep : ∀ t, (t = stAtk ∨ t = stAtkEnd) → combatOngoing t = true →
        ∀ f : Nat, 1 ≤ f → ∃ t1, takeTurn attackOracle f t = some t1 ∧
          totalHealth t1 < totalHealth t ∧
          (advanceIdx t1 = stAtk ∨ advanceIdx t1 = stAtkEnd) := by
      intro t hI hon f hf
      rcases hI with h | h
      · subst h
        obtain ⟨f', rfl⟩ : ∃ f', f = f' + 1 := ⟨f - 1, by omega⟩
        exact ⟨stAtkMid, rfl, by decide, Or.inr rfl⟩
      · subst h
        exact absurd hon (by decide)
    obtain ⟨r, hr⟩ := combat_loop_terminal_amended.2 attackOracle
      (fun t => t = stAtk ∨ t = stAtkEnd) hstep 150 stAtk (Or.inl rfl) (by decide)
    rw [hr]
    rfl

end TBEverquest
